import Mathlib

/-
Shallow embedding of the parameter validation engine in
`parameter_validator.py` (classes `ParameterDefinition`, `ParameterValidator`,
exception `ValidationError`), together with a model of the slice of the
Python runtime the code relies on (dynamic values, `str`, `int`, `float`
conversion, truthiness, comparisons, dict operations).

Conventions of the embedding:
  * Python dynamic values are the inductive type `Value`; `None` is
    `Value.vNull`.  Input mappings and the validator registry are
    association lists in insertion order, mirroring Python dicts.
  * Python floats are modelled as rationals.  Their textual rendering
    mirrors `repr` exactly on integral values ("1.0") and only
    approximately otherwise; no result below depends on the rendering of a
    non-integral float.  `int("...")`/`float("...")` parsing is modelled
    without underscores, exponents, inf and nan, none of which appear in
    the repository.
  * Python dict equality is modelled pairwise in order (Python compares
    dicts order-insensitively); no result below compares dict values.
  * Exceptions are the error side of `Except PyExc`: `validationError`
    is the `ValidationError` class raised and caught by the validator;
    `typeError` is an uncaught interpreter `TypeError` (e.g. ordering a
    string against a numeric bound), which aborts `validate` at once;
    `configError` is the definition-time `ValueError` of
    `ParameterDefinition.__post_init__` (the configuration error of the
    design).
  * The regular expression engine `re.match` is an explicit function
    argument `rm : String → String → Bool` (`rm pat s` = "`s` matches
    `pat` anchored at the start"); the validator only ever consults it on
    string values with a declared non-empty pattern.
-/

/-- A Python dynamic value, JSON-shaped, as handled by the validator. -/
inductive Value where
  | vNull
  | vBool (b : Bool)
  | vInt (n : Int)
  | vFloat (q : Rat)
  | vStr (s : String)
  | vList (xs : List Value)
  | vDict (xs : List (String × Value))

/-- Python truthiness test `value is None`. -/
def isNull : Value → Bool
  | .vNull => true
  | _ => false

/-- Python `isinstance(value, str)`. -/
def isStr : Value → Bool
  | .vStr _ => true
  | _ => false

/-- Rendering of a float value: exact for integral floats, approximate
otherwise (no result depends on the non-integral case). -/
def ratStr (q : Rat) : String :=
  if q.den = 1 then toString q.num ++ ".0"
  else toString q.num ++ "/" ++ toString q.den

/-- Rendering of a numeric bound (`str` of an int-or-float bound; the
embedding stores bounds as rationals and renders integral ones as ints). -/
def ratBoundStr (q : Rat) : String :=
  if q.den = 1 then toString q.num else ratStr q

mutual

/-- Python `repr(value)`, used for elements inside containers. -/
def pyReprV : Value → String
  | .vNull => "None"
  | .vBool b => if b then "True" else "False"
  | .vInt n => toString n
  | .vFloat q => ratStr q
  | .vStr s => "\x27" ++ s ++ "\x27"
  | .vList xs => "[" ++ pyReprList xs ++ "]"
  | .vDict xs => "\x7b" ++ pyReprDict xs ++ "\x7d"

/-- Comma-separated reprs of the elements of a list. -/
def pyReprList : List Value → String
  | [] => ""
  | [x] => pyReprV x
  | x :: y :: xs => pyReprV x ++ ", " ++ pyReprList (y :: xs)

/-- Comma-separated `key: value` reprs of the entries of a dict. -/
def pyReprDict : List (String × Value) → String
  | [] => ""
  | [(k, v)] => "\x27" ++ k ++ "\x27: " ++ pyReprV v
  | (k, v) :: q :: xs => "\x27" ++ k ++ "\x27: " ++ pyReprV v ++ ", " ++ pyReprDict (q :: xs)

end

/-- Python `str(value)`: identity on strings, `repr` rendering
otherwise (containers render their elements by `repr`). -/
def pyStr : Value → String
  | .vStr s => s
  | v => pyReprV v

mutual

/-- Python `==` between dynamic values (numeric kinds compare by value,
`True == 1` etc.). -/
def pyEq : Value → Value → Bool
  | .vNull, .vNull => true
  | .vBool a, .vBool b => a == b
  | .vBool a, .vInt b => (if a then (1 : Int) else 0) == b
  | .vInt a, .vBool b => a == (if b then (1 : Int) else 0)
  | .vBool a, .vFloat b => (if a then (1 : Rat) else 0) == b
  | .vFloat a, .vBool b => a == (if b then (1 : Rat) else 0)
  | .vInt a, .vInt b => a == b
  | .vInt a, .vFloat b => ((a : Rat)) == b
  | .vFloat a, .vInt b => a == ((b : Rat))
  | .vFloat a, .vFloat b => a == b
  | .vStr a, .vStr b => a == b
  | .vList a, .vList b => pyEqList a b
  | .vDict a, .vDict b => pyEqDict a b
  | _, _ => false

/-- Elementwise `==` on lists. -/
def pyEqList : List Value → List Value → Bool
  | [], [] => true
  | x :: xs, y :: ys => pyEq x y && pyEqList xs ys
  | _, _ => false

/-- Pairwise `==` on dict entries. -/
def pyEqDict : List (String × Value) → List (String × Value) → Bool
  | [], [] => true
  | (k, v) :: xs, (k2, v2) :: ys => k == k2 && pyEq v v2 && pyEqDict xs ys
  | _, _ => false

end

/-- Numeric view of a value for ordered comparison against a bound
(`bool` counts as 0/1 as in Python); `none` for non-numeric values, where
Python ordering raises `TypeError`. -/
def pyNum : Value → Option Rat
  | .vBool b => some (if b then 1 else 0)
  | .vInt n => some ((n : Rat))
  | .vFloat q => some q
  | _ => none

/-- Python `type(value).__name__`. -/
def pyTypeName : Value → String
  | .vNull => "NoneType"
  | .vBool _ => "bool"
  | .vInt _ => "int"
  | .vFloat _ => "float"
  | .vStr _ => "str"
  | .vList _ => "list"
  | .vDict _ => "dict"

/-- Lowercasing of an ASCII character (`str.lower` on the inputs the
validator compares against). -/
def charLower (c : Char) : Char :=
  if 65 ≤ c.toNat ∧ c.toNat ≤ 90 then Char.ofNat (c.toNat + 32) else c

/-- Python `s.lower()` restricted to ASCII. -/
def asciiLower (s : String) : String := ⟨s.data.map charLower⟩

/-- Removal of surrounding whitespace from a character list. -/
def trimWs (cs : List Char) : List Char :=
  ((cs.dropWhile Char.isWhitespace).reverse.dropWhile Char.isWhitespace).reverse

/-- Numeric value of a string of decimal digits. -/
def digitsVal (cs : List Char) : Nat :=
  cs.foldl (fun acc c => acc * 10 + (c.toNat - 48)) 0

/-- Split off an optional leading sign. -/
def splitSign : List Char → Bool × List Char
  | c :: rest => if c = '-' then (true, rest) else if c = '+' then (false, rest) else (false, c :: rest)
  | [] => (false, [])

/-- Python `int(s)` on a string: optional surrounding whitespace, optional
sign, one or more decimal digits; anything else raises `ValueError`. -/
def pyParseInt (s : String) : Option Int :=
  let cs := trimWs s.data
  let sd := splitSign cs
  if sd.2 ≠ [] ∧ sd.2.all Char.isDigit then
    some (if sd.1 then -((digitsVal sd.2 : Int)) else (digitsVal sd.2 : Int))
  else none

/-- Split a character list at the first dot. -/
def splitDot : List Char → List Char × Option (List Char)
  | [] => ([], none)
  | c :: rest =>
    if c = '.' then ([], some rest)
    else
      let r := splitDot rest
      (c :: r.1, r.2)

/-- Python `float(s)` on a string: optional whitespace and sign, digits
with an optional fractional part, at least one digit overall. -/
def pyParseFloat (s : String) : Option Rat :=
  let cs := trimWs s.data
  let sd := splitSign cs
  let parts := splitDot sd.2
  let frac := parts.2.getD []
  if (parts.1 ≠ [] ∨ frac ≠ []) ∧ parts.1.all Char.isDigit ∧ frac.all Char.isDigit then
    let mag : Rat := (digitsVal parts.1 : Rat) + (digitsVal frac : Rat) / ((10 : Rat) ^ frac.length)
    some (if sd.1 then -mag else mag)
  else none

/-- Truncation of a rational toward zero, as Python `int(float)`. -/
def ratTrunc (q : Rat) : Int :=
  if q.num ≥ 0 then ((q.num.toNat / q.den : Nat) : Int)
  else -(((-q.num).toNat / q.den : Nat) : Int)

/-- Python `int(value)`: ints pass through, bools become 0/1, floats
truncate, numeric-looking strings parse; `None`, lists and dicts raise
(`TypeError`, caught by the coercion code alongside `ValueError`). -/
def pyIntOf : Value → Option Int
  | .vBool b => some (if b then 1 else 0)
  | .vInt n => some n
  | .vFloat q => some (ratTrunc q)
  | .vStr s => pyParseInt s
  | _ => none

/-- Python `float(value)` under the same conventions. -/
def pyFloatOf : Value → Option Rat
  | .vBool b => some (if b then 1 else 0)
  | .vInt n => some ((n : Rat))
  | .vFloat q => some q
  | .vStr s => pyParseFloat s
  | _ => none

/-- The `ParameterType` enum of the source. -/
inductive ParameterType where
  | STRING
  | INTEGER
  | FLOAT
  | BOOLEAN
  | LIST
  | DICT
deriving DecidableEq

/-- The `value` payload of each `ParameterType` member. -/
def ParameterType.value : ParameterType → String
  | .STRING => "string"
  | .INTEGER => "integer"
  | .FLOAT => "float"
  | .BOOLEAN => "boolean"
  | .LIST => "list"
  | .DICT => "dict"

/-- The exceptions the validator code can raise: its own
`ValidationError`, an uncaught interpreter `TypeError`, and the
definition-time configuration error of `__post_init__`. -/
inductive PyExc where
  | validationError (msg : String)
  | typeError (msg : String)
  | configError (msg : String)

/-- The `ParameterDefinition` dataclass: one parameter with all its
constraints.  The custom validator is modelled as a Boolean predicate on
the coerced value. -/
structure ParameterDefinition where
  name : String
  param_type : ParameterType
  description : String := ""
  required : Bool := true
  default : Value := .vNull
  allowed_values : Option (List Value) := none
  min_value : Option Rat := none
  max_value : Option Rat := none
  min_length : Option Int := none
  max_length : Option Int := none
  pattern : Option String := none
  custom_validator : Option (Value → Bool) := none
  error_message : Option String := none

/-- `ParameterDefinition.__post_init__`: an optional parameter must carry
a non-null default, otherwise construction fails with the configuration
error; any other field combination is accepted exactly as given. -/
def postInit (d : ParameterDefinition) : Except PyExc ParameterDefinition :=
  if !d.required && isNull d.default then
    .error (.configError ("Optional parameter \x27" ++ d.name ++ "\x27 must have a default value"))
  else .ok d

/-- Python `x or y` on an optional string: `None` and `""` are falsy. -/
def strOr (m : Option String) (fallback : String) : String :=
  match m with
  | some s => if s = "" then fallback else s
  | none => fallback

/-- The missing-required-parameter message (`error_message` override when
truthy, else the generated text). -/
def missingMsg (n : String) (d : ParameterDefinition) : String :=
  strOr d.error_message ("Required parameter \x27" ++ n ++ "\x27 is missing")

/-- `ParameterValidator._validate_type`: coerce a (non-null) value to the
declared parameter type or fail with a `ValidationError`. -/
def validateType (n : String) (v : Value) (d : ParameterDefinition) : Except PyExc Value :=
  match d.param_type with
  | .STRING =>
    match v with
    | .vStr s => .ok (.vStr s)
    | _ => .ok (.vStr (pyStr v))
  | .INTEGER =>
    match pyIntOf v with
    | some k => .ok (.vInt k)
    | none => .error (.validationError ("Parameter \x27" ++ n ++ "\x27 must be an integer, got \x27" ++ pyStr v ++ "\x27"))
  | .FLOAT =>
    match pyFloatOf v with
    | some q => .ok (.vFloat q)
    | none => .error (.validationError ("Parameter \x27" ++ n ++ "\x27 must be a float, got \x27" ++ pyStr v ++ "\x27"))
  | .BOOLEAN =>
    match v with
    | .vBool b => .ok (.vBool b)
    | .vStr s =>
      if asciiLower s == "true" || asciiLower s == "1" || asciiLower s == "yes" then .ok (.vBool true)
      else if asciiLower s == "false" || asciiLower s == "0" || asciiLower s == "no" then .ok (.vBool false)
      else .error (.validationError ("Parameter \x27" ++ n ++ "\x27 must be a boolean, got \x27" ++ pyStr (.vStr s) ++ "\x27"))
    | _ => .error (.validationError ("Parameter \x27" ++ n ++ "\x27 must be a boolean, got \x27" ++ pyStr v ++ "\x27"))
  | .LIST =>
    match v with
    | .vList xs => .ok (.vList xs)
    | _ => .error (.validationError ("Parameter \x27" ++ n ++ "\x27 must be a list, got " ++ pyTypeName v))
  | .DICT =>
    match v with
    | .vDict xs => .ok (.vDict xs)
    | _ => .error (.validationError ("Parameter \x27" ++ n ++ "\x27 must be a dict, got " ++ pyTypeName v))

/-- Custom-validator check, the last constraint of
`_validate_parameter`. -/
def checkCustom (n : String) (w : Value) (d : ParameterDefinition) : Except PyExc Value :=
  match d.custom_validator with
  | some f =>
    if f w then .ok w
    else .error (.validationError (strOr d.error_message ("Parameter \x27" ++ n ++ "\x27 failed custom validation")))
  | none => .ok w

/-- Pattern check: consulted only for a truthy (non-empty) declared
pattern and a string coerced value, silently skipped otherwise. -/
def checkPattern (rm : String → String → Bool) (n : String) (w : Value) (d : ParameterDefinition) : Except PyExc Value :=
  match d.pattern with
  | some p =>
    if p = "" then checkCustom n w d
    else
      match w with
      | .vStr s =>
        if rm p s then checkCustom n w d
        else .error (.validationError ("Parameter \x27" ++ n ++ "\x27 does not match required pattern: " ++ p))
      | _ => checkCustom n w d
  | none => checkCustom n w d

/-- Maximum length check on the textual rendering of the coerced value. -/
def checkMaxLen (rm : String → String → Bool) (n : String) (w : Value) (d : ParameterDefinition) : Except PyExc Value :=
  match d.max_length with
  | some m =>
    if ((pyStr w).length : Int) > m then
      .error (.validationError ("Parameter \x27" ++ n ++ "\x27 must have length <= " ++ toString m))
    else checkPattern rm n w d
  | none => checkPattern rm n w d

/-- Minimum length check on the textual rendering of the coerced value. -/
def checkMinLen (rm : String → String → Bool) (n : String) (w : Value) (d : ParameterDefinition) : Except PyExc Value :=
  match d.min_length with
  | some m =>
    if ((pyStr w).length : Int) < m then
      .error (.validationError ("Parameter \x27" ++ n ++ "\x27 must have length >= " ++ toString m))
    else checkMaxLen rm n w d
  | none => checkMaxLen rm n w d

/-- Upper numeric bound check; ordering a non-numeric coerced value
against a bound raises an uncaught `TypeError`. -/
def checkMax (rm : String → String → Bool) (n : String) (w : Value) (d : ParameterDefinition) : Except PyExc Value :=
  match d.max_value with
  | some m =>
    match pyNum w with
    | some r =>
      if r > m then
        .error (.validationError ("Parameter \x27" ++ n ++ "\x27 must be <= " ++ ratBoundStr m ++ ", got " ++ pyStr w))
      else checkMinLen rm n w d
    | none => .error (.typeError ("unorderable comparison for parameter \x27" ++ n ++ "\x27"))
  | none => checkMinLen rm n w d

/-- Lower numeric bound check; ordering a non-numeric coerced value
against a bound raises an uncaught `TypeError`. -/
def checkMin (rm : String → String → Bool) (n : String) (w : Value) (d : ParameterDefinition) : Except PyExc Value :=
  match d.min_value with
  | some m =>
    match pyNum w with
    | some r =>
      if r < m then
        .error (.validationError ("Parameter \x27" ++ n ++ "\x27 must be >= " ++ ratBoundStr m ++ ", got " ++ pyStr w))
      else checkMax rm n w d
    | none => .error (.typeError ("unorderable comparison for parameter \x27" ++ n ++ "\x27"))
  | none => checkMax rm n w d

/-- Allowed-values membership check (Python `in`, elementwise `==`),
first in the constraint sequence of `_validate_parameter`. -/
def checkAllowed (rm : String → String → Bool) (n : String) (w : Value) (d : ParameterDefinition) : Except PyExc Value :=
  match d.allowed_values with
  | some avs =>
    if avs.any (fun a => pyEq w a) then checkMin rm n w d
    else .error (.validationError ("Parameter \x27" ++ n ++ "\x27 must be one of [" ++ pyReprList avs ++ "], got \x27" ++ pyStr w ++ "\x27"))
  | none => checkMin rm n w d

/-- `ParameterValidator._validate_parameter`: `None` (absent or explicit
null) is a missing parameter — error if required, the stored default
as-is if optional; a present value is coerced and then run through the
constraint sequence. -/
def validateParameter (rm : String → String → Bool) (n : String) (v : Value) (d : ParameterDefinition) : Except PyExc Value :=
  if isNull v then
    if d.required then .error (.validationError (missingMsg n d))
    else .ok d.default
  else
    match validateType n v d with
    | .ok w => checkAllowed rm n w d
    | .error e => .error e

/-- The validator registry: the insertion-ordered dict
`ParameterValidator.parameters`. -/
abbrev Registry := List (String × ParameterDefinition)

/-- `ParameterValidator.add_parameter`: dict assignment keyed by the
definition name — replaces in place when the name is present, appends
otherwise. -/
def addParameter (ps : Registry) (d : ParameterDefinition) : Registry :=
  if (ps.map Prod.fst).contains d.name then
    ps.map (fun p => if p.1 == d.name then (p.1, d) else p)
  else ps ++ [(d.name, d)]

/-- Python `input_params.get(name)`: the stored value, or `None` when the
key is absent. -/
def getVal (input : List (String × Value)) (n : String) : Value :=
  match input.find? (fun p => p.1 == n) with
  | some p => p.2
  | none => .vNull

/-- The per-definition loop of `validate`: walk the registry in
registration order, collecting validated values and `ValidationError`
messages; any other exception aborts at once. -/
def collectP (rm : String → String → Bool) (input : List (String × Value)) : Registry → Except PyExc (List (String × Value) × List String)
  | [] => .ok ([], [])
  | p :: rest =>
    match validateParameter rm p.1 (getVal input p.1) p.2 with
    | .ok v =>
      match collectP rm input rest with
      | .ok r => .ok ((p.1, v) :: r.1, r.2)
      | .error e => .error e
    | .error (.validationError m) =>
      match collectP rm input rest with
      | .ok r => .ok (r.1, m :: r.2)
      | .error e => .error e
    | .error e => .error e

/-- The input keys with no matching definition (`set(input) - set(defined)`,
in input order). -/
def unexpectedKeys (ps : Registry) (input : List (String × Value)) : List String :=
  (input.map Prod.fst).filter (fun k => !((ps.map Prod.fst).contains k))

/-- `ParameterValidator.validate`: validate every defined parameter,
append one unexpected-parameters message when unknown keys exist, then
either raise one `ValidationError` joining all messages with newlines or
return the full validated mapping. -/
def validate (rm : String → String → Bool) (ps : Registry) (input : List (String × Value)) : Except PyExc (List (String × Value)) :=
  match collectP rm input ps with
  | .error e => .error e
  | .ok r =>
    let unexpected := unexpectedKeys ps input
    let errs := if unexpected.isEmpty then r.2
      else r.2 ++ ["Unexpected parameters: " ++ String.intercalate ", " unexpected]
    if errs.isEmpty then .ok r.1
    else .error (.validationError (String.intercalate "\n" errs))

/-- Rendering of a numeric bound in the documentation
(`param.min_value or "-∞"`: `None` and a zero bound are falsy). -/
def boundOr (m : Option Rat) (fallback : String) : String :=
  match m with
  | some q => if q = 0 then fallback else ratBoundStr q
  | none => fallback

/-- Rendering of a length bound in the documentation under Python `or`
truthiness. -/
def lenBoundOr (m : Option Int) (fallback : String) : String :=
  match m with
  | some k => if k = 0 then fallback else toString k
  | none => fallback

/-- One `## name` section of the generated documentation. -/
def docSection (n : String) (d : ParameterDefinition) : String :=
  "## " ++ n ++ "\n\n"
  ++ "**Description:** " ++ d.description ++ "\n\n"
  ++ "**Type:** `" ++ d.param_type.value ++ "`\n\n"
  ++ "**Required:** " ++ (if d.required then "Yes" else "No") ++ "\n\n"
  ++ (if isNull d.default then "" else "**Default:** `" ++ pyStr d.default ++ "`\n\n")
  ++ (match d.allowed_values with
      | some avs =>
        if avs.isEmpty then ""
        else "**Allowed Values:** " ++ String.intercalate ", " (avs.map (fun v => "`" ++ pyStr v ++ "`")) ++ "\n\n"
      | none => "")
  ++ (if d.min_value.isSome || d.max_value.isSome then
        "**Range:** " ++ boundOr d.min_value "-∞" ++ " to " ++ boundOr d.max_value "∞" ++ "\n\n"
      else "")
  ++ (if d.min_length.isSome || d.max_length.isSome then
        "**Length:** " ++ lenBoundOr d.min_length "0" ++ " to " ++ lenBoundOr d.max_length "unlimited" ++ " characters\n\n"
      else "")
  ++ (match d.pattern with
      | some p => if p = "" then "" else "**Pattern:** `" ++ p ++ "`\n\n"
      | none => "")
  ++ "---\n\n"

/-- `ParameterValidator.generate_documentation`: the fixed header
followed by one section per definition in registration order. -/
def generateDocumentation (ps : Registry) : String :=
  "# Parameter Definitions\n\n"
  ++ "Complete list of parameters, types, defaults, and validation rules.\n\n"
  ++ String.join (ps.map (fun p => docSection p.1 p.2))

/-- Python dict assignment `input[n] = v`: replaces the value at an
existing key in place, appends at the end otherwise. -/
def setK (input : List (String × Value)) (n : String) (v : Value) : List (String × Value) :=
  if (input.map Prod.fst).contains n then
    input.map (fun p => if p.1 == n then (p.1, v) else p)
  else input ++ [(n, v)]

/-- Removal of a key from an input mapping. -/
def eraseK (input : List (String × Value)) (n : String) : List (String × Value) :=
  input.filter (fun p => !(p.1 == n))

/-- Whether a per-parameter outcome is an exception the validator loop
does not catch (anything but its own `ValidationError`). -/
def isCrash : Except PyExc Value → Bool
  | .error (.validationError _) => false
  | .error _ => true
  | .ok _ => false

/-- The value inside a successful outcome (junk on errors). -/
def okValueOf : Except PyExc Value → Value
  | .ok v => v
  | _ => .vNull

/-- The message of a caught `ValidationError` outcome, if any. -/
def errMsgOf : Except PyExc Value → Option String
  | .error (.validationError m) => some m
  | _ => none

/-- The outcome of one registry entry against an input mapping. -/
def vpOf (rm : String → String → Bool) (input : List (String × Value)) (p : String × ParameterDefinition) : Except PyExc Value :=
  validateParameter rm p.1 (getVal input p.1) p.2

/-- The `ValidationError` messages recorded by the per-definition loop,
in registration order. -/
def errMsgs (rm : String → String → Bool) (ps : Registry) (input : List (String × Value)) : List String :=
  ps.filterMap (fun p => errMsgOf (vpOf rm input p))

/-- The validated entries produced by the per-definition loop, in
registration order. -/
def okEntries (rm : String → String → Bool) (ps : Registry) (input : List (String × Value)) : List (String × Value) :=
  ps.filterMap (fun p => match vpOf rm input p with | .ok v => some (p.1, v) | _ => none)

/-- The (empty or singleton) unexpected-parameters message list. -/
def unexpectedMsgs (ps : Registry) (input : List (String × Value)) : List String :=
  if (unexpectedKeys ps input).isEmpty then []
  else ["Unexpected parameters: " ++ String.intercalate ", " (unexpectedKeys ps input)]

/-- Every error message one `validate` call records: the per-definition
messages in registration order, then the unexpected-parameters message
last. -/
def recordedErrors (rm : String → String → Bool) (ps : Registry) (input : List (String × Value)) : List String :=
  errMsgs rm ps input ++ unexpectedMsgs ps input

/-- Specification view, from the constraint-checker description: the
allowed-values violation of a coerced value, if any. -/
def allowedViolation (n : String) (w : Value) (d : ParameterDefinition) : Option PyExc :=
  match d.allowed_values with
  | some avs =>
    if avs.any (fun a => pyEq w a) then none
    else some (.validationError ("Parameter \x27" ++ n ++ "\x27 must be one of [" ++ pyReprList avs ++ "], got \x27" ++ pyStr w ++ "\x27"))
  | none => none

/-- Specification view: the lower-bound violation, if any (ordering a
non-numeric value against a declared bound is the uncaught failure). -/
def minViolation (n : String) (w : Value) (d : ParameterDefinition) : Option PyExc :=
  match d.min_value with
  | some m =>
    match pyNum w with
    | some r =>
      if r < m then some (.validationError ("Parameter \x27" ++ n ++ "\x27 must be >= " ++ ratBoundStr m ++ ", got " ++ pyStr w))
      else none
    | none => some (.typeError ("unorderable comparison for parameter \x27" ++ n ++ "\x27"))
  | none => none

/-- Specification view: the upper-bound violation, if any. -/
def maxViolation (n : String) (w : Value) (d : ParameterDefinition) : Option PyExc :=
  match d.max_value with
  | some m =>
    match pyNum w with
    | some r =>
      if r > m then some (.validationError ("Parameter \x27" ++ n ++ "\x27 must be <= " ++ ratBoundStr m ++ ", got " ++ pyStr w))
      else none
    | none => some (.typeError ("unorderable comparison for parameter \x27" ++ n ++ "\x27"))
  | none => none

/-- Specification view: the minimum-length violation on the textual
rendering, if any. -/
def minLenViolation (n : String) (w : Value) (d : ParameterDefinition) : Option PyExc :=
  match d.min_length with
  | some m =>
    if ((pyStr w).length : Int) < m then
      some (.validationError ("Parameter \x27" ++ n ++ "\x27 must have length >= " ++ toString m))
    else none
  | none => none

/-- Specification view: the maximum-length violation on the textual
rendering, if any. -/
def maxLenViolation (n : String) (w : Value) (d : ParameterDefinition) : Option PyExc :=
  match d.max_length with
  | some m =>
    if ((pyStr w).length : Int) > m then
      some (.validationError ("Parameter \x27" ++ n ++ "\x27 must have length <= " ++ toString m))
    else none
  | none => none

/-- Specification view: the pattern violation, applicable only to a
truthy declared pattern and a string coerced value. -/
def patternViolation (rm : String → String → Bool) (n : String) (w : Value) (d : ParameterDefinition) : Option PyExc :=
  match d.pattern with
  | some p =>
    if p = "" then none
    else
      match w with
      | .vStr s =>
        if rm p s then none
        else some (.validationError ("Parameter \x27" ++ n ++ "\x27 does not match required pattern: " ++ p))
      | _ => none
  | none => none

/-- Specification view: the custom-validator violation, if any. -/
def customViolation (n : String) (w : Value) (d : ParameterDefinition) : Option PyExc :=
  match d.custom_validator with
  | some f =>
    if f w then none
    else some (.validationError (strOr d.error_message ("Parameter \x27" ++ n ++ "\x27 failed custom validation")))
  | none => none

/-- The constraint checker as the specification words it: the checks run
in the fixed order allowed values, lower bound, upper bound, minimum
length, maximum length, pattern, custom validator, and the first failing
check determines the outcome; when none fails the coerced value stands. -/
def specChecks (rm : String → String → Bool) (n : String) (w : Value) (d : ParameterDefinition) : Except PyExc Value :=
  match allowedViolation n w d with
  | some e => .error e
  | none =>
    match minViolation n w d with
    | some e => .error e
    | none =>
      match maxViolation n w d with
      | some e => .error e
      | none =>
        match minLenViolation n w d with
        | some e => .error e
        | none =>
          match maxLenViolation n w d with
          | some e => .error e
          | none =>
            match patternViolation rm n w d with
            | some e => .error e
            | none =>
              match customViolation n w d with
              | some e => .error e
              | none => .ok w

/-- A definition with its declared pattern removed. -/
def erasePattern (d : ParameterDefinition) : ParameterDefinition :=
  { d with pattern := none }

/-- A regex engine that accepts everything (concrete instantiations). -/
def rmTrue : String → String → Bool := fun _ _ => true

/-- A concrete regex engine for the two-letter language-code pattern of
the repository: a string matches iff it has exactly two characters (the
truth value of `^[a-z]\x7b2\x7d$` on the lowercase inputs exercised). -/
def rmLen2 : String → String → Bool := fun _ s => s.length == 2

/-- The `type` definition of `create_translation_validator`. -/
def dTypeF : ParameterDefinition :=
  { name := "type", param_type := .STRING,
    description := "Type of content being translated", required := true,
    allowed_values := some [.vStr "prescription", .vStr "symptom"],
    error_message := some "Type must be either \x27prescription\x27 or \x27symptom\x27" }

/-- The `text` definition of `create_translation_validator`. -/
def dTextF : ParameterDefinition :=
  { name := "text", param_type := .STRING,
    description := "Text to be translated", required := true,
    min_length := some 1, max_length := some 5000,
    error_message := some "Text must be between 1 and 5000 characters" }

/-- The `language_origin` definition of `create_translation_validator`. -/
def dLangF : ParameterDefinition :=
  { name := "language_origin", param_type := .STRING,
    description := "Source language code", required := false,
    default := .vStr "en", pattern := some "^[a-z]\x7b2\x7d$",
    error_message := some "Language code must be 2 lowercase letters" }

/-- A registry with two required definitions (both can be missing at
once). -/
def regMissing : Registry := [("type", dTypeF), ("text", dTextF)]

/-- A small well-behaved registry whose optional default satisfies its
own constraints. -/
def regGood : Registry := [("type", dTypeF), ("language_origin", dLangF)]

/-- An optional definition whose stored default violates its own
allowed-values constraint. -/
def dOptBad : ParameterDefinition :=
  { name := "x", param_type := .STRING, required := false,
    default := .vStr "zz", allowed_values := some [.vStr "a"] }

/-- The one-entry registry around `dOptBad`. -/
def regBad : Registry := [("x", dOptBad)]

/-- A bare required integer definition. -/
def dIntF : ParameterDefinition := { name := "count", param_type := .INTEGER }

/-- A bare required float definition. -/
def dFloatF : ParameterDefinition := { name := "confidence_threshold", param_type := .FLOAT }

/-- A bare required boolean definition. -/
def dBoolF : ParameterDefinition := { name := "flag", param_type := .BOOLEAN }

/-- An optional definition without a default: construction must fail. -/
def dBadOpt : ParameterDefinition := { name := "x", param_type := .STRING, required := false }

/-- A definition with contradictory numeric bounds, accepted as given. -/
def dContra : ParameterDefinition :=
  { name := "y", param_type := .INTEGER, min_value := some 5, max_value := some 1 }

/-- A required string definition carrying the language-code pattern. -/
def dPat : ParameterDefinition :=
  { name := "lang", param_type := .STRING, required := true,
    pattern := some "^[a-z]\x7b2\x7d$" }

/-- A required integer definition carrying a (skipped) pattern. -/
def dPatInt : ParameterDefinition :=
  { name := "n", param_type := .INTEGER, pattern := some "^[0-9]+$" }

/-- First registration under the name `p`. -/
def dDupA : ParameterDefinition :=
  { name := "p", param_type := .STRING, description := "old" }

/-- Replacement registration under the same name `p`. -/
def dDupB : ParameterDefinition :=
  { name := "p", param_type := .INTEGER, description := "new", min_value := some 0 }

/-- A two-entry registry used to observe in-place replacement. -/
def regDup : Registry := [("p", dDupA), ("q", dTextF)]

/-- Unfolding of `vpOf`. -/
theorem vpOf_def (rm : String → String → Bool) (input : List (String × Value)) (p : String × ParameterDefinition) :
    vpOf rm input p = validateParameter rm p.1 (getVal input p.1) p.2 := rfl

/-- When no registry entry raises an uncaught exception, the
per-definition loop returns every validated entry and every recorded
message, both in registration order. -/
theorem collectP_of_no_crash (rm : String → String → Bool) (input : List (String × Value)) :
    ∀ ps : Registry, (∀ p ∈ ps, isCrash (vpOf rm input p) = false) →
      collectP rm input ps = .ok (okEntries rm ps input, errMsgs rm ps input) := by
  intro ps
  induction ps with
  | nil => intro _; rfl
  | cons p rest ih =>
    intro h
    have hrest := ih (fun q hq => h q (List.mem_cons_of_mem p hq))
    have hp := h p (List.mem_cons_self p rest)
    unfold collectP
    rw [← vpOf_def rm input p]
    cases hvp : vpOf rm input p with
    | ok v =>
      simp only [hrest, okEntries, errMsgs, List.filterMap_cons, hvp, errMsgOf]
    | error e =>
      cases e with
      | validationError m =>
        simp only [hrest, okEntries, errMsgs, List.filterMap_cons, hvp, errMsgOf]
      | typeError m => rw [hvp] at hp; exact absurd hp (by simp [isCrash])
      | configError m => rw [hvp] at hp; exact absurd hp (by simp [isCrash])

/-- When every registry entry validates, the loop returns exactly the
entry list with no messages. -/
theorem collectP_all_ok (rm : String → String → Bool) (input : List (String × Value))
    (g : String × ParameterDefinition → Value) :
    ∀ ps : Registry, (∀ p ∈ ps, vpOf rm input p = .ok (g p)) →
      collectP rm input ps = .ok (ps.map (fun p => (p.1, g p)), []) := by
  intro ps
  induction ps with
  | nil => intro _; rfl
  | cons p rest ih =>
    intro h
    have hrest := ih (fun q hq => h q (List.mem_cons_of_mem p hq))
    have hp := h p (List.mem_cons_self p rest)
    unfold collectP
    rw [← vpOf_def rm input p, hp, hrest]
    rfl

/-- A successful loop with no recorded message means every entry
validated, and names the value of each. -/
theorem collectP_ok_nil (rm : String → String → Bool) (input : List (String × Value)) :
    ∀ (ps : Registry) (vs : List (String × Value)),
      collectP rm input ps = .ok (vs, []) →
      (∀ p ∈ ps, vpOf rm input p = .ok (okValueOf (vpOf rm input p)))
      ∧ vs = ps.map (fun p => (p.1, okValueOf (vpOf rm input p))) := by
  intro ps
  induction ps with
  | nil =>
    intro vs h
    constructor
    · intro p hp; exact absurd hp (List.not_mem_nil p)
    · have h2 : (([], []) : List (String × Value) × List String) = (vs, []) := by
        injection h
      have h3 := congrArg Prod.fst h2
      simpa using h3.symm
  | cons p rest ih =>
    intro vs h
    unfold collectP at h
    rw [← vpOf_def rm input p] at h
    cases hvp : vpOf rm input p with
    | ok v =>
      rw [hvp] at h
      cases hr : collectP rm input rest with
      | ok r =>
        obtain ⟨vs1, es1⟩ := r
        rw [hr] at h
        have h2 : ((p.1, v) :: vs1, es1) = (vs, ([] : List String)) := by injection h
        have h3 := congrArg Prod.fst h2
        have h4 := congrArg Prod.snd h2
        simp only at h3 h4
        subst h4
        have hrec := ih vs1 hr
        constructor
        · intro q hq
          rcases List.mem_cons.mp hq with hq1 | hq2
          · rw [hq1, hvp]; rfl
          · exact hrec.1 q hq2
        · have hfp : okValueOf (vpOf rm input p) = v := by rw [hvp]; rfl
          rw [← h3, List.map_cons]
          simp only [hfp, hrec.2]
      | error e => rw [hr] at h; exact Except.noConfusion h
    | error e =>
      rw [hvp] at h
      cases e with
      | validationError m =>
        cases hr : collectP rm input rest with
        | ok r =>
          obtain ⟨vs1, es1⟩ := r
          rw [hr] at h
          have h2 : (vs1, m :: es1) = (vs, ([] : List String)) := by injection h
          have h4 := congrArg Prod.snd h2
          exact absurd h4 (by simp)
        | error e2 => rw [hr] at h; exact Except.noConfusion h
      | typeError m => exact Except.noConfusion h
      | configError m => exact Except.noConfusion h

/-- Without uncaught exceptions, `validate` either succeeds with the
validated entries or raises one `ValidationError` joining every recorded
message with newlines. -/
theorem validate_of_no_crash (rm : String → String → Bool) (ps : Registry) (input : List (String × Value))
    (h : ∀ p ∈ ps, isCrash (vpOf rm input p) = false) :
    validate rm ps input =
      (if (recordedErrors rm ps input).isEmpty then .ok (okEntries rm ps input)
       else .error (.validationError (String.intercalate "\n" (recordedErrors rm ps input)))) := by
  unfold validate
  rw [collectP_of_no_crash rm input ps h]
  unfold recordedErrors unexpectedMsgs
  cases hu : (unexpectedKeys ps input).isEmpty with
  | true => simp [hu]
  | false => simp [hu]

/-- A successful `validate` call implies every definition validated, the
output is the per-definition value list, and no key was unexpected. -/
theorem validate_ok_elim (rm : String → String → Bool) (ps : Registry) (input : List (String × Value))
    (out : List (String × Value)) (h : validate rm ps input = .ok out) :
    (∀ p ∈ ps, vpOf rm input p = .ok (okValueOf (vpOf rm input p)))
    ∧ out = ps.map (fun p => (p.1, okValueOf (vpOf rm input p)))
    ∧ unexpectedKeys ps input = [] := by
  unfold validate at h
  cases hc : collectP rm input ps with
  | error e => rw [hc] at h; exact Except.noConfusion h
  | ok r =>
    obtain ⟨vs, es⟩ := r
    rw [hc] at h
    dsimp only at h
    cases hu : (unexpectedKeys ps input).isEmpty with
    | false =>
      rw [hu] at h
      simp only [Bool.false_eq_true, if_false] at h
      have : (es ++ ["Unexpected parameters: " ++ String.intercalate ", " (unexpectedKeys ps input)]).isEmpty = false := by
        simp
      rw [this] at h
      simp only [Bool.false_eq_true, if_false] at h
      exact Except.noConfusion h
    | true =>
      rw [hu] at h
      simp only [if_true] at h
      cases hes : es.isEmpty with
      | false =>
        rw [hes] at h
        simp only [Bool.false_eq_true, if_false] at h
        exact Except.noConfusion h
      | true =>
        rw [hes] at h
        simp only [if_true] at h
        have hvs : vs = out := by injection h
        have hes2 : es = [] := List.isEmpty_iff.mp hes
        rw [hes2] at hc
        have hnil := collectP_ok_nil rm input ps vs hc
        exact ⟨hnil.1, by rw [← hvs]; exact hnil.2, List.isEmpty_iff.mp hu⟩

/-- C1: whenever a `validate` call records any violation and no
definition raises an uncaught exception, it raises one single
`ValidationError` whose message joins every recorded message with
newlines, per-definition messages in registration order and the
unexpected-parameters message last, returning no partial result; in
particular every missing required parameter contributes its own
message. -/
theorem validate_aggregates_all_errors (rm : String → String → Bool) (ps : Registry)
    (input : List (String × Value))
    (hnc : ∀ p ∈ ps, isCrash (vpOf rm input p) = false)
    (hne : recordedErrors rm ps input ≠ []) :
    validate rm ps input = .error (.validationError (String.intercalate "\n" (recordedErrors rm ps input)))
    ∧ ∀ p ∈ ps, p.2.required = true → getVal input p.1 = .vNull →
        missingMsg p.1 p.2 ∈ recordedErrors rm ps input := by
  constructor
  · rw [validate_of_no_crash rm ps input hnc]
    have hne2 : (recordedErrors rm ps input).isEmpty = false := by
      cases hrec : recordedErrors rm ps input with
      | nil => exact absurd hrec hne
      | cons a l => rfl
    rw [hne2]
    simp
  · intro p hp hreq hnull
    have hvp : vpOf rm input p = .error (.validationError (missingMsg p.1 p.2)) := by
      rw [vpOf_def, hnull]
      unfold validateParameter
      rw [hreq]
      rfl
    apply List.mem_append_left
    unfold errMsgs
    refine List.mem_filterMap.mpr ⟨p, hp, ?_⟩
    rw [hvp]
    rfl

/-- C1 witness: with both required parameters of `regMissing` absent,
`validate` raises one error joining both missing-parameter messages, and
each parameter contributes its own message. -/
theorem validate_aggregates_all_errors_witness :
    validate rmTrue regMissing [] = .error (.validationError (String.intercalate "\n" (recordedErrors rmTrue regMissing [])))
    ∧ missingMsg "type" dTypeF ∈ recordedErrors rmTrue regMissing []
    ∧ missingMsg "text" dTextF ∈ recordedErrors rmTrue regMissing [] := by
  have h := validate_aggregates_all_errors rmTrue regMissing [] (by decide) (by decide)
  exact ⟨h.1,
    h.2 ("type", dTypeF) (List.mem_cons_self _ _) rfl rfl,
    h.2 ("text", dTextF) (List.mem_cons_of_mem _ (List.mem_cons_self _ _)) rfl rfl⟩

/-- C2: a successful `validate` call returns a mapping whose keys are
exactly the registered names in registration order (never a subset or a
superset), each entry holding the outcome `_validate_parameter` produced
for that definition (the coerced-and-checked input value or the
default). -/
theorem validate_ok_keys_exact (rm : String → String → Bool) (ps : Registry)
    (input : List (String × Value)) (out : List (String × Value))
    (h : validate rm ps input = .ok out) :
    out.map Prod.fst = ps.map Prod.fst
    ∧ ∀ e ∈ out, ∃ d, (e.1, d) ∈ ps ∧ validateParameter rm e.1 (getVal input e.1) d = .ok e.2 := by
  obtain ⟨hall, hout, -⟩ := validate_ok_elim rm ps input out h
  constructor
  · rw [hout, List.map_map]
    have hfe : (Prod.fst ∘ fun p : String × ParameterDefinition => (p.1, okValueOf (vpOf rm input p))) = Prod.fst :=
      funext (fun p => rfl)
    rw [hfe]
  · intro e he
    rw [hout] at he
    obtain ⟨q, hq, he2⟩ := List.mem_map.mp he
    refine ⟨q.2, ?_, ?_⟩
    · rw [← he2]
      exact hq
    · rw [← he2]
      exact hall q hq

/-- C2 witness: on `regGood` with only `type` supplied, the result
carries exactly the two defined names with their values. -/
theorem validate_ok_keys_exact_witness :
    ([("type", Value.vStr "symptom"), ("language_origin", Value.vStr "en")] : List (String × Value)).map Prod.fst = regGood.map Prod.fst
    ∧ ∀ e ∈ ([("type", Value.vStr "symptom"), ("language_origin", Value.vStr "en")] : List (String × Value)),
        ∃ d, (e.1, d) ∈ regGood ∧ validateParameter rmLen2 e.1 (getVal [("type", Value.vStr "symptom")] e.1) d = .ok e.2 :=
  validate_ok_keys_exact rmLen2 regGood [("type", Value.vStr "symptom")]
    [("type", Value.vStr "symptom"), ("language_origin", Value.vStr "en")] rfl

/-- C3: an optional definition whose key is absent (null) yields its
stored default exactly as stored — no coercion and no constraint check
touches it (the conclusion holds whatever the constraint fields are) —
and on success that default appears in the result mapping. -/
theorem optional_default_used_as_is (rm : String → String → Bool) (ps : Registry)
    (input : List (String × Value)) (out : List (String × Value))
    (n : String) (d : ParameterDefinition) (hreq : d.required = false) :
    validateParameter rm n .vNull d = .ok d.default
    ∧ ((n, d) ∈ ps → getVal input n = .vNull → validate rm ps input = .ok out →
        (n, d.default) ∈ out) := by
  have hbase : validateParameter rm n .vNull d = .ok d.default := by
    unfold validateParameter
    rw [hreq]
    rfl
  refine ⟨hbase, ?_⟩
  intro hmem hnull hok
  obtain ⟨-, hout, -⟩ := validate_ok_elim rm ps input out hok
  rw [hout]
  refine List.mem_map.mpr ⟨(n, d), hmem, ?_⟩
  show ((n, d).1, okValueOf (vpOf rm input (n, d))) = (n, d.default)
  have hvp : vpOf rm input (n, d) = .ok d.default := by
    rw [vpOf_def]
    show validateParameter rm n (getVal input n) d = .ok d.default
    rw [hnull]
    exact hbase
  rw [hvp]
  rfl

/-- C3 witness: `dOptBad` has a default that violates its own
allowed-values constraint, yet the default is returned untouched and
lands in the successful result. -/
theorem optional_default_used_as_is_witness :
    validateParameter rmLen2 "x" .vNull dOptBad = .ok dOptBad.default
    ∧ ("x", dOptBad.default) ∈ ([("x", Value.vStr "zz")] : List (String × Value)) := by
  have h := optional_default_used_as_is rmLen2 regBad [] [("x", Value.vStr "zz")] "x" dOptBad rfl
  exact ⟨h.1, h.2 (List.mem_cons_self _ _) rfl rfl⟩

/-- C4 counterexample: validating the empty input against `regBad`
succeeds and fills in the default `"zz"`, but re-validating that very
output fails its allowed-values constraint, so `validate` is not
idempotent as claimed. -/
theorem validate_idempotence_counterexample :
    validate rmLen2 regBad [] = .ok [("x", Value.vStr "zz")]
    ∧ validate rmLen2 regBad [("x", Value.vStr "zz")]
        = .error (.validationError "Parameter \x27x\x27 must be one of [\x27a\x27], got \x27zz\x27") :=
  ⟨rfl, rfl⟩

/-- A successful coercion never produces the null value. -/
theorem validateType_ok_notNull (n : String) (v : Value) (d : ParameterDefinition) (w : Value)
    (h : validateType n v d = .ok w) : isNull w = false := by
  unfold validateType at h
  cases hpt : d.param_type <;> simp only [hpt] at h
  all_goals repeat' split at h
  all_goals first
    | exact Except.noConfusion h
    | (injection h with h2; rw [← h2]; rfl)

/-- Coercion is a projection: coercing an already-coerced value returns
it unchanged. -/
theorem validateType_fixed (n : String) (v : Value) (d : ParameterDefinition) (w : Value)
    (h : validateType n v d = .ok w) : validateType n w d = .ok w := by
  unfold validateType at h ⊢
  cases hpt : d.param_type <;> simp only [hpt] at h ⊢
  all_goals repeat' split at h
  all_goals first
    | exact Except.noConfusion h
    | (injection h with h2; subst h2; rfl)

/-- The custom check agrees with its specification view. -/
theorem checkCustom_eq (n : String) (w : Value) (d : ParameterDefinition) :
    checkCustom n w d = (match customViolation n w d with | some e => .error e | none => .ok w) := by
  unfold checkCustom customViolation
  cases d.custom_validator with
  | none => rfl
  | some f => cases hf : f w <;> simp [hf]

/-- The pattern check agrees with its specification view, continuing
with the custom check. -/
theorem checkPattern_eq (rm : String → String → Bool) (n : String) (w : Value) (d : ParameterDefinition) :
    checkPattern rm n w d = (match patternViolation rm n w d with | some e => .error e | none => checkCustom n w d) := by
  unfold checkPattern patternViolation
  cases d.pattern with
  | none => rfl
  | some p =>
    by_cases hp : p = ""
    · simp [hp]
    · simp only [if_neg hp]
      cases w <;> try rfl
      rename_i s
      cases hr : rm p s <;> simp [hr]

/-- The maximum-length check agrees with its specification view. -/
theorem checkMaxLen_eq (rm : String → String → Bool) (n : String) (w : Value) (d : ParameterDefinition) :
    checkMaxLen rm n w d = (match maxLenViolation n w d with | some e => .error e | none => checkPattern rm n w d) := by
  unfold checkMaxLen maxLenViolation
  cases d.max_length with
  | none => rfl
  | some m => by_cases hc : ((pyStr w).length : Int) > m <;> simp [hc]

/-- The minimum-length check agrees with its specification view. -/
theorem checkMinLen_eq (rm : String → String → Bool) (n : String) (w : Value) (d : ParameterDefinition) :
    checkMinLen rm n w d = (match minLenViolation n w d with | some e => .error e | none => checkMaxLen rm n w d) := by
  unfold checkMinLen minLenViolation
  cases d.min_length with
  | none => rfl
  | some m => by_cases hc : ((pyStr w).length : Int) < m <;> simp [hc]

/-- The upper-bound check agrees with its specification view. -/
theorem checkMax_eq (rm : String → String → Bool) (n : String) (w : Value) (d : ParameterDefinition) :
    checkMax rm n w d = (match maxViolation n w d with | some e => .error e | none => checkMinLen rm n w d) := by
  unfold checkMax maxViolation
  cases d.max_value with
  | none => rfl
  | some m =>
    cases hn : pyNum w with
    | none => simp [hn]
    | some r => by_cases hc : r > m <;> simp [hn, hc]

/-- The lower-bound check agrees with its specification view. -/
theorem checkMin_eq (rm : String → String → Bool) (n : String) (w : Value) (d : ParameterDefinition) :
    checkMin rm n w d = (match minViolation n w d with | some e => .error e | none => checkMax rm n w d) := by
  unfold checkMin minViolation
  cases d.min_value with
  | none => rfl
  | some m =>
    cases hn : pyNum w with
    | none => simp [hn]
    | some r => by_cases hc : r < m <;> simp [hn, hc]

/-- The allowed-values check agrees with its specification view. -/
theorem checkAllowed_eq (rm : String → String → Bool) (n : String) (w : Value) (d : ParameterDefinition) :
    checkAllowed rm n w d = (match allowedViolation n w d with | some e => .error e | none => checkMin rm n w d) := by
  unfold checkAllowed allowedViolation
  cases d.allowed_values with
  | none => rfl
  | some avs => by_cases hc : avs.any (fun a => pyEq w a) <;> simp [hc]

/-- The whole source constraint chain equals the specification-ordered
first-failure chain. -/
theorem chain_eq_spec (rm : String → String → Bool) (n : String) (w : Value) (d : ParameterDefinition) :
    checkAllowed rm n w d = specChecks rm n w d := by
  unfold specChecks
  rw [checkAllowed_eq]
  cases allowedViolation n w d with
  | some e => rfl
  | none =>
    rw [checkMin_eq]
    cases minViolation n w d with
    | some e => rfl
    | none =>
      rw [checkMax_eq]
      cases maxViolation n w d with
      | some e => rfl
      | none =>
        rw [checkMinLen_eq]
        cases minLenViolation n w d with
        | some e => rfl
        | none =>
          rw [checkMaxLen_eq]
          cases maxLenViolation n w d with
          | some e => rfl
          | none =>
            rw [checkPattern_eq]
            cases patternViolation rm n w d with
            | some e => rfl
            | none => rw [checkCustom_eq]

/-- A passing constraint chain returns exactly the coerced value it was
given. -/
theorem specChecks_ok_val (rm : String → String → Bool) (n : String) (w : Value) (d : ParameterDefinition)
    (u : Value) (h : specChecks rm n w d = .ok u) : u = w := by
  unfold specChecks at h
  repeat' split at h
  all_goals first
    | exact Except.noConfusion h
    | (injection h with h2; exact h2.symm)

/-- A successful validation of a present value decomposes into a
successful coercion to that same value and a passing constraint chain. -/
theorem vp_ok_decomp (rm : String → String → Bool) (n : String) (v : Value) (d : ParameterDefinition)
    (w : Value) (hv : isNull v = false) (h : validateParameter rm n v d = .ok w) :
    validateType n v d = .ok w ∧ checkAllowed rm n w d = .ok w := by
  unfold validateParameter at h
  simp only [hv, Bool.false_eq_true, if_false] at h
  cases ht : validateType n v d with
  | error e => rw [ht] at h; exact Except.noConfusion h
  | ok w0 =>
    rw [ht] at h
    have hs : specChecks rm n w0 d = .ok w := by rw [← chain_eq_spec]; exact h
    have hval : w = w0 := specChecks_ok_val rm n w0 d w hs
    rw [hval] at h ⊢
    exact ⟨rfl, h⟩

/-- Re-validating an already-validated present value returns it
unchanged: coercion is a projection and the deterministic constraint
chain passes again. -/
theorem vp_stable (rm : String → String → Bool) (n : String) (v : Value) (d : ParameterDefinition)
    (w : Value) (hv : isNull v = false) (h : validateParameter rm n v d = .ok w) :
    validateParameter rm n w d = .ok w := by
  obtain ⟨ht, hc⟩ := vp_ok_decomp rm n v d w hv h
  have hw : isNull w = false := validateType_ok_notNull n v d w ht
  have ht2 := validateType_fixed n v d w ht
  unfold validateParameter
  simp only [hw, Bool.false_eq_true, if_false, ht2]
  exact hc

/-- Keys of an entry list built over a registry are the registry keys. -/
theorem map_fst_entries (ps : Registry) (g : String × ParameterDefinition → Value) :
    (ps.map (fun p => (p.1, g p))).map Prod.fst = ps.map Prod.fst := by
  rw [List.map_map]
  exact congrFun (congrArg List.map (funext fun p => rfl)) ps

/-- Looking a registered name up in an entry list built over a
registry with distinct names returns that entry value. -/
theorem getVal_map_nodup (g : String × ParameterDefinition → Value) :
    ∀ ps : Registry, (ps.map Prod.fst).Nodup →
      ∀ p ∈ ps, getVal (ps.map (fun q => (q.1, g q))) p.1 = g p := by
  intro ps
  induction ps with
  | nil => intro _ p hp; exact absurd hp (List.not_mem_nil p)
  | cons q rest ih =>
    intro hnd p hp
    have hnd2 : (rest.map Prod.fst).Nodup := (List.nodup_cons.mp (by simpa using hnd)).2
    have hq1 : q.1 ∉ rest.map Prod.fst := (List.nodup_cons.mp (by simpa using hnd)).1
    rcases List.mem_cons.mp hp with h1 | h2
    · subst h1
      unfold getVal
      rw [List.map_cons, List.find?_cons_of_pos _ (by simp)]
    · have hne : q.1 ≠ p.1 := by
        intro hcontra
        exact hq1 (hcontra ▸ List.mem_map_of_mem Prod.fst h2)
      unfold getVal
      rw [List.map_cons, List.find?_cons_of_neg _ (by simpa using hne)]
      exact ih hnd2 p h2

/-- When every input key is defined, no key is unexpected. -/
theorem unexpectedKeys_eq_nil_of_subset (ps : Registry) (input2 : List (String × Value))
    (h : ∀ k ∈ input2.map Prod.fst, (ps.map Prod.fst).contains k = true) :
    unexpectedKeys ps input2 = [] := by
  unfold unexpectedKeys
  apply List.filter_eq_nil_iff.mpr
  intro k hk
  rw [h k hk]
  decide

/-- C4 (amended): for a registry with distinct names, a successful
`validate` call whose applied defaults each re-validate to themselves is
idempotent — feeding the output back in succeeds and returns the same
mapping.  (The unrestricted claim fails: a default bypasses coercion and
constraints on the first call but not on the second, see the
counterexample.) -/
theorem validate_idempotent_of_stable_defaults (rm : String → String → Bool) (ps : Registry)
    (input : List (String × Value)) (out : List (String × Value))
    (hnd : (ps.map Prod.fst).Nodup)
    (hok : validate rm ps input = .ok out)
    (hd : ∀ p ∈ ps, p.2.required = false → validateParameter rm p.1 p.2.default p.2 = .ok p.2.default) :
    validate rm ps out = .ok out := by
  obtain ⟨hall, hout, -⟩ := validate_ok_elim rm ps input out hok
  have hstep : ∀ p ∈ ps, vpOf rm out p = .ok (okValueOf (vpOf rm input p)) := by
    intro p hp
    have hget : getVal out p.1 = okValueOf (vpOf rm input p) := by
      rw [hout]
      exact getVal_map_nodup (fun q => okValueOf (vpOf rm input q)) ps hnd p hp
    rw [vpOf_def, hget]
    have hv := hall p hp
    rw [vpOf_def] at hv
    cases hn : isNull (getVal input p.1) with
    | false =>
      exact vp_stable rm p.1 (getVal input p.1) p.2 (okValueOf (vpOf rm input p)) hn hv
    | true =>
      cases hreq : p.2.required with
      | true =>
        exfalso
        unfold validateParameter at hv
        rw [hn, hreq] at hv
        simp at hv
      | false =>
        have hvp0 : vpOf rm input p = .ok p.2.default := by
          rw [vpOf_def]
          unfold validateParameter
          rw [hn, hreq]
          simp
        rw [hvp0]
        exact hd p hp hreq
  have hcoll := collectP_all_ok rm out (fun p => okValueOf (vpOf rm input p)) ps hstep
  have hkeys : out.map Prod.fst = ps.map Prod.fst := by
    rw [hout]
    exact map_fst_entries ps (fun q => okValueOf (vpOf rm input q))
  have hun : unexpectedKeys ps out = [] := by
    apply unexpectedKeys_eq_nil_of_subset
    intro k hk
    rw [hkeys] at hk
    simpa using hk
  unfold validate
  rw [hcoll]
  dsimp only
  rw [hun]
  simp only [List.isEmpty_nil, if_true]
  rw [← hout]

/-- C4 (amended) witness: `regGood` has distinct names and its only
default re-validates to itself, so re-validating the successful output
returns it unchanged. -/
theorem validate_idempotent_of_stable_defaults_witness :
    validate rmLen2 regGood [("type", Value.vStr "symptom"), ("language_origin", Value.vStr "en")]
      = .ok [("type", Value.vStr "symptom"), ("language_origin", Value.vStr "en")] := by
  have h := validate_idempotent_of_stable_defaults rmLen2 regGood
    [("type", Value.vStr "symptom")]
    [("type", Value.vStr "symptom"), ("language_origin", Value.vStr "en")]
    (by decide) rfl ?_
  · exact h
  · intro p hp
    rcases List.mem_cons.mp hp with h1 | h1
    · rw [h1]
      intro hreq
      exact absurd hreq (by decide)
    · rcases List.mem_cons.mp h1 with h2 | h2
      · rw [h2]
        intro _
        rfl
      · exact absurd h2 (List.not_mem_nil p)

/-- The allowed-values check never produces a configuration error. -/
theorem allowedViolation_no_config (n : String) (w : Value) (d : ParameterDefinition) (m : String) :
    allowedViolation n w d ≠ some (.configError m) := by
  unfold allowedViolation
  cases d.allowed_values with
  | none => simp
  | some avs => split <;> simp

/-- The lower-bound check never produces a configuration error. -/
theorem minViolation_no_config (n : String) (w : Value) (d : ParameterDefinition) (m : String) :
    minViolation n w d ≠ some (.configError m) := by
  unfold minViolation
  cases d.min_value with
  | none => simp
  | some b =>
    cases pyNum w with
    | none => simp
    | some r => split <;> simp

/-- The upper-bound check never produces a configuration error. -/
theorem maxViolation_no_config (n : String) (w : Value) (d : ParameterDefinition) (m : String) :
    maxViolation n w d ≠ some (.configError m) := by
  unfold maxViolation
  cases d.max_value with
  | none => simp
  | some b =>
    cases pyNum w with
    | none => simp
    | some r => split <;> simp

/-- The minimum-length check never produces a configuration error. -/
theorem minLenViolation_no_config (n : String) (w : Value) (d : ParameterDefinition) (m : String) :
    minLenViolation n w d ≠ some (.configError m) := by
  unfold minLenViolation
  cases d.min_length with
  | none => simp
  | some b => split <;> simp

/-- The maximum-length check never produces a configuration error. -/
theorem maxLenViolation_no_config (n : String) (w : Value) (d : ParameterDefinition) (m : String) :
    maxLenViolation n w d ≠ some (.configError m) := by
  unfold maxLenViolation
  cases d.max_length with
  | none => simp
  | some b => split <;> simp

/-- The pattern check never produces a configuration error. -/
theorem patternViolation_no_config (rm : String → String → Bool) (n : String) (w : Value) (d : ParameterDefinition) (m : String) :
    patternViolation rm n w d ≠ some (.configError m) := by
  unfold patternViolation
  cases d.pattern with
  | none => simp
  | some p =>
    by_cases hp : p = ""
    · simp [hp]
    · simp only [if_neg hp]
      cases w <;> simp

/-- The custom check never produces a configuration error. -/
theorem customViolation_no_config (n : String) (w : Value) (d : ParameterDefinition) (m : String) :
    customViolation n w d ≠ some (.configError m) := by
  unfold customViolation
  cases d.custom_validator with
  | none => simp
  | some f => split <;> simp

/-- The whole constraint chain never raises a configuration error. -/
theorem specChecks_no_config (rm : String → String → Bool) (n : String) (w : Value) (d : ParameterDefinition) (m : String) :
    specChecks rm n w d ≠ .error (.configError m) := by
  intro h
  unfold specChecks at h
  cases ha : allowedViolation n w d with
  | some e => rw [ha] at h; injection h with h2; subst h2; exact allowedViolation_no_config n w d m ha
  | none =>
    rw [ha] at h
    cases hb : minViolation n w d with
    | some e => rw [hb] at h; injection h with h2; subst h2; exact minViolation_no_config n w d m hb
    | none =>
      rw [hb] at h
      cases hc : maxViolation n w d with
      | some e => rw [hc] at h; injection h with h2; subst h2; exact maxViolation_no_config n w d m hc
      | none =>
        rw [hc] at h
        cases he : minLenViolation n w d with
        | some e => rw [he] at h; injection h with h2; subst h2; exact minLenViolation_no_config n w d m he
        | none =>
          rw [he] at h
          cases hf : maxLenViolation n w d with
          | some e => rw [hf] at h; injection h with h2; subst h2; exact maxLenViolation_no_config n w d m hf
          | none =>
            rw [hf] at h
            cases hg : patternViolation rm n w d with
            | some e => rw [hg] at h; injection h with h2; subst h2; exact patternViolation_no_config rm n w d m hg
            | none =>
              rw [hg] at h
              cases hh : customViolation n w d with
              | some e => rw [hh] at h; injection h with h2; subst h2; exact customViolation_no_config n w d m hh
              | none => rw [hh] at h; exact Except.noConfusion h

/-- Coercion never raises a configuration error. -/
theorem validateType_no_config (n : String) (v : Value) (d : ParameterDefinition) (m : String) :
    validateType n v d ≠ .error (.configError m) := by
  intro h
  unfold validateType at h
  cases hpt : d.param_type <;> simp only [hpt] at h
  all_goals repeat' split at h
  all_goals first
    | exact Except.noConfusion h
    | (injection h with h2; exact PyExc.noConfusion h2)

/-- `_validate_parameter` never raises a configuration error. -/
theorem validateParameter_no_config (rm : String → String → Bool) (n : String) (v : Value)
    (d : ParameterDefinition) (m : String) :
    validateParameter rm n v d ≠ .error (.configError m) := by
  intro h
  unfold validateParameter at h
  cases hn : isNull v with
  | true =>
    rw [hn] at h
    simp only [if_true] at h
    cases hreq : d.required with
    | true =>
      rw [hreq] at h
      simp only [if_true] at h
      injection h with h2
      exact PyExc.noConfusion h2
    | false =>
      rw [hreq] at h
      simp only [Bool.false_eq_true, if_false] at h
      exact Except.noConfusion h
  | false =>
    rw [hn] at h
    simp only [Bool.false_eq_true, if_false] at h
    cases ht : validateType n v d with
    | error e =>
      rw [ht] at h
      injection h with h2
      subst h2
      exact validateType_no_config n v d m ht
    | ok w =>
      rw [ht] at h
      have h2 : checkAllowed rm n w d = .error (.configError m) := h
      rw [chain_eq_spec] at h2
      exact specChecks_no_config rm n w d m h2

/-- The per-definition loop never propagates a configuration error. -/
theorem collectP_no_config (rm : String → String → Bool) (input : List (String × Value)) (m : String) :
    ∀ ps : Registry, collectP rm input ps ≠ .error (.configError m) := by
  intro ps
  induction ps with
  | nil => intro h; exact Except.noConfusion h
  | cons p rest ih =>
    intro h
    unfold collectP at h
    cases hvp : validateParameter rm p.1 (getVal input p.1) p.2 with
    | ok v =>
      rw [hvp] at h
      cases hr : collectP rm input rest with
      | ok r => rw [hr] at h; exact Except.noConfusion h
      | error e =>
        rw [hr] at h
        injection h with h2
        subst h2
        exact ih hr
    | error e =>
      rw [hvp] at h
      cases e with
      | validationError m2 =>
        cases hr : collectP rm input rest with
        | ok r => rw [hr] at h; exact Except.noConfusion h
        | error e2 =>
          rw [hr] at h
          injection h with h2
          subst h2
          exact ih hr
      | typeError m2 => injection h with h2; exact PyExc.noConfusion h2
      | configError m2 =>
        injection h with h2
        rw [h2] at hvp
        exact validateParameter_no_config rm p.1 (getVal input p.1) p.2 m hvp

/-- C5: constructing an optional definition without a default fails at
definition time with the configuration error (so no such definition is
observable); every other field combination — contradictory bounds
included — is accepted exactly as given; and this error kind is disjoint
from `ValidationError`: a `validate` call never raises it. -/
theorem postInit_config_invariant :
    (∀ d : ParameterDefinition, d.required = false → isNull d.default = true →
      postInit d = .error (.configError ("Optional parameter \x27" ++ d.name ++ "\x27 must have a default value")))
    ∧ (∀ d : ParameterDefinition, d.required = true ∨ isNull d.default = false → postInit d = .ok d)
    ∧ (∀ (rm : String → String → Bool) (ps : Registry) (input : List (String × Value)) (m : String),
        validate rm ps input ≠ .error (.configError m)) := by
  refine ⟨?_, ?_, ?_⟩
  · intro d hreq hdef
    unfold postInit
    rw [hreq, hdef]
    rfl
  · intro d hor
    unfold postInit
    rcases hor with hreq | hdef
    · rw [hreq]
      rfl
    · cases hreq : d.required with
      | true => rw [hdef]; rfl
      | false => rw [hdef]; rfl
  · intro rm ps input m h
    unfold validate at h
    cases hc : collectP rm input ps with
    | error e =>
      rw [hc] at h
      injection h with h2
      subst h2
      exact collectP_no_config rm input m ps hc
    | ok r =>
      rw [hc] at h
      dsimp only at h
      repeat' split at h
      all_goals first
        | exact Except.noConfusion h
        | (injection h with h2; exact PyExc.noConfusion h2)

/-- C5 witness: `dBadOpt` (optional, no default) is rejected with the
configuration error, the contradictory-bounds definition `dContra` is
accepted as given, and a failing `validate` call raises no configuration
error. -/
theorem postInit_config_invariant_witness :
    postInit dBadOpt = .error (.configError "Optional parameter \x27x\x27 must have a default value")
    ∧ postInit dContra = .ok dContra
    ∧ validate rmTrue regMissing [] ≠ .error (.configError "boom") :=
  ⟨postInit_config_invariant.1 dBadOpt rfl rfl,
   postInit_config_invariant.2.1 dContra (Or.inl rfl),
   postInit_config_invariant.2.2 rmTrue regMissing [] "boom"⟩

/-- C6: coercion to the string type is total — every raw value becomes
its textual rendering — while integer, float and boolean coercion fail
with a typed error naming the parameter on non-numeric text such as
`"abc"`. -/
theorem string_total_numeric_fallible :
    (∀ (n : String) (v : Value) (d : ParameterDefinition), d.param_type = .STRING →
        validateType n v d = .ok (.vStr (pyStr v)))
    ∧ (∀ (n : String) (d : ParameterDefinition), d.param_type = .INTEGER →
        validateType n (.vStr "abc") d
          = .error (.validationError ("Parameter \x27" ++ n ++ "\x27 must be an integer, got \x27" ++ "abc" ++ "\x27")))
    ∧ (∀ (n : String) (d : ParameterDefinition), d.param_type = .FLOAT →
        validateType n (.vStr "abc") d
          = .error (.validationError ("Parameter \x27" ++ n ++ "\x27 must be a float, got \x27" ++ "abc" ++ "\x27")))
    ∧ (∀ (n : String) (d : ParameterDefinition), d.param_type = .BOOLEAN →
        validateType n (.vStr "abc") d
          = .error (.validationError ("Parameter \x27" ++ n ++ "\x27 must be a boolean, got \x27" ++ "abc" ++ "\x27"))) := by
  refine ⟨?_, ?_, ?_, ?_⟩
  · intro n v d hpt
    unfold validateType
    simp only [hpt]
    cases v <;> rfl
  · intro n d hpt
    unfold validateType
    simp only [hpt]
    rfl
  · intro n d hpt
    unfold validateType
    simp only [hpt]
    rfl
  · intro n d hpt
    unfold validateType
    simp only [hpt]
    rfl

/-- C6 witness: a list coerces to its rendering under the string type;
`"abc"` is rejected by the three numeric coercions. -/
theorem string_total_numeric_fallible_witness :
    validateType "type" (.vList [.vInt 1]) dTypeF = .ok (.vStr (pyStr (.vList [.vInt 1])))
    ∧ validateType "count" (.vStr "abc") dIntF
        = .error (.validationError ("Parameter \x27" ++ "count" ++ "\x27 must be an integer, got \x27" ++ "abc" ++ "\x27"))
    ∧ validateType "confidence_threshold" (.vStr "abc") dFloatF
        = .error (.validationError ("Parameter \x27" ++ "confidence_threshold" ++ "\x27 must be a float, got \x27" ++ "abc" ++ "\x27"))
    ∧ validateType "flag" (.vStr "abc") dBoolF
        = .error (.validationError ("Parameter \x27" ++ "flag" ++ "\x27 must be a boolean, got \x27" ++ "abc" ++ "\x27")) :=
  ⟨string_total_numeric_fallible.1 "type" (.vList [.vInt 1]) dTypeF rfl,
   string_total_numeric_fallible.2.1 "count" dIntF rfl,
   string_total_numeric_fallible.2.2.1 "confidence_threshold" dFloatF rfl,
   string_total_numeric_fallible.2.2.2 "flag" dBoolF rfl⟩

/-- A non-string coerced value never triggers the pattern check. -/
theorem patternViolation_non_string (rm : String → String → Bool) (n : String) (w : Value)
    (d : ParameterDefinition) (hw : isStr w = false) : patternViolation rm n w d = none := by
  unfold patternViolation
  cases d.pattern with
  | none => rfl
  | some p =>
    dsimp only
    split
    · rfl
    · cases w with
      | vStr s => exact absurd hw (by simp [isStr])
      | vNull => rfl
      | vBool b => rfl
      | vInt k => rfl
      | vFloat q => rfl
      | vList xs => rfl
      | vDict xs => rfl

/-- A passing constraint chain passes each of its checks. -/
theorem specChecks_ok_components (rm : String → String → Bool) (n : String) (w : Value)
    (d : ParameterDefinition) (u : Value) (h : specChecks rm n w d = .ok u) :
    allowedViolation n w d = none ∧ minViolation n w d = none ∧ maxViolation n w d = none
    ∧ minLenViolation n w d = none ∧ maxLenViolation n w d = none
    ∧ patternViolation rm n w d = none ∧ customViolation n w d = none := by
  unfold specChecks at h
  cases ha : allowedViolation n w d with
  | some e => rw [ha] at h; exact absurd h (by simp)
  | none =>
  rw [ha] at h
  cases hb : minViolation n w d with
  | some e => rw [hb] at h; exact absurd h (by simp)
  | none =>
  rw [hb] at h
  cases hc : maxViolation n w d with
  | some e => rw [hc] at h; exact absurd h (by simp)
  | none =>
  rw [hc] at h
  cases he : minLenViolation n w d with
  | some e => rw [he] at h; exact absurd h (by simp)
  | none =>
  rw [he] at h
  cases hf : maxLenViolation n w d with
  | some e => rw [hf] at h; exact absurd h (by simp)
  | none =>
  rw [hf] at h
  cases hg : patternViolation rm n w d with
  | some e => rw [hg] at h; exact absurd h (by simp)
  | none =>
  rw [hg] at h
  cases hh : customViolation n w d with
  | some e => rw [hh] at h; exact absurd h (by simp)
  | none => exact ⟨rfl, rfl, rfl, rfl, rfl, rfl, rfl⟩

/-- C7: the pattern constraint fires only when a pattern is declared and
the coerced value is a string.  First conjunct: when the coerced value is
not a string (or coercion fails), the declared pattern is silently
skipped — validation behaves exactly as if no pattern were declared.
Second conjunct: when the coerced value is a string and every other
check passes, the outcome is decided by matching the value against the
pattern from its start, a mismatch recording the pattern error naming
the parameter and the pattern. -/
theorem pattern_checked_only_for_strings :
    (∀ (rm : String → String → Bool) (n : String) (v : Value) (d : ParameterDefinition),
        (∀ s, validateType n v d ≠ .ok (.vStr s)) →
        validateParameter rm n v d = validateParameter rm n v (erasePattern d))
    ∧ (∀ (rm : String → String → Bool) (n : String) (v : Value) (d : ParameterDefinition) (s p : String),
        isNull v = false → d.pattern = some p → p ≠ "" →
        validateParameter rm n v (erasePattern d) = .ok (.vStr s) →
        validateParameter rm n v d =
          (if rm p s then .ok (.vStr s)
           else .error (.validationError ("Parameter \x27" ++ n ++ "\x27 does not match required pattern: " ++ p)))) := by
  constructor
  · intro rm n v d hns
    unfold validateParameter
    cases hn : isNull v with
    | true => rfl
    | false =>
      have hvt : validateType n v (erasePattern d) = validateType n v d := rfl
      rw [hvt]
      cases ht : validateType n v d with
      | error e => rfl
      | ok w =>
        have hw : isStr w = false := by
          cases w <;> try rfl
          rename_i s
          exact absurd ht (hns s)
        show checkAllowed rm n w d = checkAllowed rm n w (erasePattern d)
        rw [chain_eq_spec, chain_eq_spec]
        unfold specChecks
        rw [patternViolation_non_string rm n w d hw,
          patternViolation_non_string rm n w (erasePattern d) hw]
        rfl
  · intro rm n v d s p hn hp hpne herased
    obtain ⟨ht, hc⟩ := vp_ok_decomp rm n v (erasePattern d) (.vStr s) hn herased
    have ht2 : validateType n v d = .ok (.vStr s) := ht
    unfold validateParameter
    simp only [hn, Bool.false_eq_true, if_false]
    rw [ht2]
    show checkAllowed rm n (.vStr s) d = _
    rw [chain_eq_spec] at hc ⊢
    obtain ⟨ha, hb, hcx, he, hf, -, hh⟩ := specChecks_ok_components rm n (.vStr s) (erasePattern d) (.vStr s) hc
    have ha2 : allowedViolation n (.vStr s) d = none := ha
    have hb2 : minViolation n (.vStr s) d = none := hb
    have hcx2 : maxViolation n (.vStr s) d = none := hcx
    have he2 : minLenViolation n (.vStr s) d = none := he
    have hf2 : maxLenViolation n (.vStr s) d = none := hf
    have hh2 : customViolation n (.vStr s) d = none := hh
    unfold specChecks
    rw [ha2, hb2, hcx2, he2, hf2]
    have hpv : patternViolation rm n (.vStr s) d
        = (if rm p s then none
           else some (.validationError ("Parameter \x27" ++ n ++ "\x27 does not match required pattern: " ++ p))) := by
      unfold patternViolation
      rw [hp]
      simp only [if_neg hpne]
    rw [hpv]
    cases hrm : rm p s with
    | true =>
      simp only [if_true]
      rw [hh2]
    | false =>
      simp only [Bool.false_eq_true, if_false]

/-- C7 witness: with an integer coerced value the declared pattern is
skipped; with a two-letter-pattern string parameter and value `"eng"`
the outcome is exactly the pattern decision (a mismatch here). -/
theorem pattern_checked_only_for_strings_witness :
    validateParameter rmLen2 "n" (.vInt 5) dPatInt = validateParameter rmLen2 "n" (.vInt 5) (erasePattern dPatInt)
    ∧ validateParameter rmLen2 "lang" (.vStr "eng") dPat =
        (if rmLen2 "^[a-z]\x7b2\x7d$" "eng" then .ok (.vStr "eng")
         else .error (.validationError ("Parameter \x27" ++ "lang" ++ "\x27 does not match required pattern: " ++ "^[a-z]\x7b2\x7d$"))) :=
  ⟨pattern_checked_only_for_strings.1 rmLen2 "n" (.vInt 5) dPatInt
      (fun s h => Value.noConfusion (Except.ok.inj h)),
   pattern_checked_only_for_strings.2 rmLen2 "lang" (.vStr "eng") dPat "eng" "^[a-z]\x7b2\x7d$"
      rfl rfl (by decide) rfl⟩

/-- C8: for a present value that coerces, `_validate_parameter` equals
the specification chain `specChecks` — the checks run in the fixed order
allowed values, lower bound, upper bound, minimum length, maximum
length, pattern, custom validator, and the first failure is the sole
recorded error for that parameter; and (second conjunct) one parameter
failing never stops the others: every definition that fails contributes
its message to the recorded error list. -/
theorem constraint_order_first_failure :
    (∀ (rm : String → String → Bool) (n : String) (v : Value) (d : ParameterDefinition) (w : Value),
        isNull v = false → validateType n v d = .ok w →
        validateParameter rm n v d = specChecks rm n w d)
    ∧ (∀ (rm : String → String → Bool) (ps : Registry) (input : List (String × Value))
        (p : String × ParameterDefinition) (m : String),
        (∀ q ∈ ps, isCrash (vpOf rm input q) = false) →
        p ∈ ps → vpOf rm input p = .error (.validationError m) →
        m ∈ recordedErrors rm ps input) := by
  constructor
  · intro rm n v d w hn ht
    unfold validateParameter
    simp only [hn, Bool.false_eq_true, if_false]
    rw [ht]
    show checkAllowed rm n w d = specChecks rm n w d
    exact chain_eq_spec rm n w d
  · intro rm ps input p m hnc hp hvp
    apply List.mem_append_left
    unfold errMsgs
    refine List.mem_filterMap.mpr ⟨p, hp, ?_⟩
    rw [hvp]
    rfl

/-- C8 witness: a present string under `dPat` runs the specification
chain, and in a two-definition registry with both definitions failing
each contributes its own message. -/
theorem constraint_order_first_failure_witness :
    validateParameter rmLen2 "lang" (.vStr "eng") dPat = specChecks rmLen2 "lang" (.vStr "eng") dPat
    ∧ missingMsg "type" dTypeF ∈ recordedErrors rmLen2 regMissing [("text", Value.vStr "")] := by
  constructor
  · exact constraint_order_first_failure.1 rmLen2 "lang" (.vStr "eng") dPat (.vStr "eng") rfl rfl
  · exact constraint_order_first_failure.2 rmLen2 regMissing [("text", Value.vStr "")]
      ("type", dTypeF) (missingMsg "type" dTypeF) (by decide) (List.mem_cons_self _ _) rfl

/-- Head unfolding of a mapping lookup. -/
theorem getVal_cons (p : String × Value) (l : List (String × Value)) (k : String) :
    getVal (p :: l) k = (if p.1 == k then p.2 else getVal l k) := by
  cases hp : p.1 == k with
  | true => simp [getVal, List.find?_cons, hp]
  | false => simp [getVal, List.find?_cons, hp]

/-- In-place replacement stores the new value at the key. -/
theorem getVal_replace (input : List (String × Value)) (n : String) (v : Value) :
    getVal (input.map (fun p => if p.1 == n then (p.1, v) else p)) n
      = (if (input.map Prod.fst).contains n then v else .vNull) := by
  induction input with
  | nil => rfl
  | cons p rest ih =>
    rw [List.map_cons, getVal_cons]
    cases hp : p.1 == n with
    | true =>
      have hpn : p.1 = n := by simpa using hp
      simp only [hp, if_true]
      simp [List.contains_cons, hpn]
    | false =>
      have hpn : ¬p.1 = n := by simpa using hp
      have hnp : (n == p.1) = false := beq_eq_false_iff_ne.mpr (fun h => hpn (Eq.symm h))
      simp only [hp, Bool.false_eq_true, if_false]
      rw [ih, List.map_cons, List.contains_cons, hnp, Bool.false_or]

/-- In-place replacement leaves other keys untouched. -/
theorem getVal_replace_ne (input : List (String × Value)) (n : String) (v : Value) (k : String)
    (hk : k ≠ n) :
    getVal (input.map (fun p => if p.1 == n then (p.1, v) else p)) k = getVal input k := by
  induction input with
  | nil => rfl
  | cons p rest ih =>
    rw [List.map_cons, getVal_cons, getVal_cons]
    cases hp : p.1 == n with
    | true =>
      have hpn : p.1 = n := by simpa using hp
      have hpk : (p.1 == k) = false :=
        beq_eq_false_iff_ne.mpr (by rw [hpn]; exact fun h => hk (Eq.symm h))
      simp only [hp, if_true, hpk, Bool.false_eq_true, if_false]
      exact ih
    | false =>
      simp only [hp, Bool.false_eq_true, if_false]
      cases hpk : p.1 == k with
      | true => simp [hpk]
      | false => simp only [hpk, Bool.false_eq_true, if_false]; exact ih

/-- Appending a fresh key makes it visible to lookup. -/
theorem getVal_append_single (input : List (String × Value)) (n : String) (v : Value)
    (h : (input.map Prod.fst).contains n = false) :
    getVal (input ++ [(n, v)]) n = v := by
  induction input with
  | nil => simp [getVal_cons]
  | cons p rest ih =>
    have h2 : (rest.map Prod.fst).contains n = false := by
      simp only [List.map_cons, List.contains_cons] at h
      exact (Bool.or_eq_false_iff.mp h).2
    have hpn : (n == p.1) = false := by
      simp only [List.map_cons, List.contains_cons] at h
      exact (Bool.or_eq_false_iff.mp h).1
    rw [List.cons_append, getVal_cons]
    have : (p.1 == n) = false := by
      simp only [beq_eq_false_iff_ne] at hpn ⊢
      exact fun hc => hpn hc.symm
    simp only [this, Bool.false_eq_true, if_false]
    exact ih h2

/-- Appending some other key leaves lookup unchanged. -/
theorem getVal_append_single_ne (input : List (String × Value)) (n : String) (v : Value)
    (k : String) (hk : k ≠ n) :
    getVal (input ++ [(n, v)]) k = getVal input k := by
  induction input with
  | nil =>
    show getVal [(n, v)] k = getVal [] k
    rw [getVal_cons]
    have hnk : (n == k) = false := beq_eq_false_iff_ne.mpr (fun h => hk (Eq.symm h))
    simp [hnk, getVal]
  | cons p rest ih =>
    rw [List.cons_append, getVal_cons, getVal_cons]
    cases hpk : p.1 == k with
    | true => simp [hpk]
    | false => simp only [hpk, Bool.false_eq_true, if_false]; exact ih

/-- Dict assignment stores the value at the key. -/
theorem getVal_setK_self (input : List (String × Value)) (n : String) (v : Value) :
    getVal (setK input n v) n = v := by
  unfold setK
  cases hc : (input.map Prod.fst).contains n with
  | true => simp only [if_true]; rw [getVal_replace, hc]; rfl
  | false => simp only [Bool.false_eq_true, if_false]; exact getVal_append_single input n v hc

/-- Dict assignment leaves other keys untouched. -/
theorem getVal_setK_ne (input : List (String × Value)) (n : String) (v : Value) (k : String)
    (hk : k ≠ n) : getVal (setK input n v) k = getVal input k := by
  unfold setK
  cases hc : (input.map Prod.fst).contains n with
  | true => simp only [if_true]; exact getVal_replace_ne input n v k hk
  | false => simp only [Bool.false_eq_true, if_false]; exact getVal_append_single_ne input n v k hk

/-- An erased key reads as absent. -/
theorem getVal_eraseK_self (input : List (String × Value)) (n : String) :
    getVal (eraseK input n) n = .vNull := by
  induction input with
  | nil => rfl
  | cons p rest ih =>
    unfold eraseK at ih ⊢
    rw [List.filter_cons]
    cases hp : p.1 == n with
    | true => simp only [hp, Bool.not_true, Bool.false_eq_true, if_false]; exact ih
    | false =>
      simp only [hp, Bool.not_false, if_true]
      rw [getVal_cons]
      simp only [hp, Bool.false_eq_true, if_false]
      exact ih

/-- Erasing one key leaves other keys untouched. -/
theorem getVal_eraseK_ne (input : List (String × Value)) (n : String) (k : String) (hk : k ≠ n) :
    getVal (eraseK input n) k = getVal input k := by
  induction input with
  | nil => rfl
  | cons p rest ih =>
    unfold eraseK at ih ⊢
    rw [List.filter_cons, getVal_cons]
    cases hp : p.1 == n with
    | true =>
      have hpn : p.1 = n := by simpa using hp
      have hpk : (p.1 == k) = false :=
        beq_eq_false_iff_ne.mpr (by rw [hpn]; exact fun h => hk (Eq.symm h))
      simp only [hp, Bool.not_true, Bool.false_eq_true, if_false, hpk]
      exact ih
    | false =>
      simp only [hp, Bool.not_false, if_true]
      rw [getVal_cons]
      cases hpk : p.1 == k with
      | true => simp [hpk]
      | false => simp only [hpk, Bool.false_eq_true, if_false]; exact ih

/-- Keys after erasing a key: the original keys without it. -/
theorem map_fst_eraseK (input : List (String × Value)) (n : String) :
    (eraseK input n).map Prod.fst = (input.map Prod.fst).filter (fun k => !(k == n)) := by
  induction input with
  | nil => rfl
  | cons p rest ih =>
    unfold eraseK at ih ⊢
    rw [List.filter_cons, List.map_cons, List.filter_cons]
    cases hp : p.1 == n with
    | true => simp only [hp, Bool.not_true, Bool.false_eq_true, if_false]; exact ih
    | false => simp only [hp, Bool.not_false, if_true, List.map_cons]; rw [ih]

/-- Keys after dict assignment: unchanged when the key existed, the key
appended otherwise. -/
theorem map_fst_setK (input : List (String × Value)) (n : String) (v : Value) :
    (setK input n v).map Prod.fst
      = (if (input.map Prod.fst).contains n then input.map Prod.fst
         else input.map Prod.fst ++ [n]) := by
  unfold setK
  cases hc : (input.map Prod.fst).contains n with
  | true =>
    simp only [if_true]
    rw [List.map_map]
    exact congrFun (congrArg List.map (funext fun p => by
      show (if (p.1 == n) = true then (p.1, v) else p).1 = p.1
      split <;> rfl)) input
  | false =>
    simp only [Bool.false_eq_true, if_false]
    rw [List.map_append]
    rfl

/-- Filtering by definedness is insensitive to first dropping a defined
key. -/
theorem filter_def_erase (ps : Registry) (keysI : List String) (n : String)
    (hdef : (ps.map Prod.fst).contains n = true) :
    (keysI.filter (fun k => !(k == n))).filter (fun k => !((ps.map Prod.fst).contains k))
      = keysI.filter (fun k => !((ps.map Prod.fst).contains k)) := by
  rw [List.filter_filter]
  apply List.filter_congr
  intro k hk
  cases hkn : k == n with
  | true =>
    have hk2 : k = n := by simpa using hkn
    rw [hk2, hdef]
    rfl
  | false =>
    rw [Bool.not_false, Bool.and_true]

/-- Setting a defined key to null and erasing it leave the same
unexpected keys. -/
theorem unexpectedKeys_null_eq (ps : Registry) (input : List (String × Value)) (n : String)
    (hdef : (ps.map Prod.fst).contains n = true) :
    unexpectedKeys ps (setK input n .vNull) = unexpectedKeys ps (eraseK input n) := by
  unfold unexpectedKeys
  rw [map_fst_setK, map_fst_eraseK, filter_def_erase ps (input.map Prod.fst) n hdef]
  cases hc : (input.map Prod.fst).contains n with
  | true => rw [if_pos rfl]
  | false =>
    rw [if_neg (by exact Bool.false_ne_true)]
    rw [List.filter_append]
    have hnil : [n].filter (fun k => !((ps.map Prod.fst).contains k)) = [] := by
      rw [List.filter_cons, hdef]
      rfl
    rw [hnil, List.append_nil]

/-- The per-definition loop reads the input only through lookups. -/
theorem collectP_congr (rm : String → String → Bool) (i1 i2 : List (String × Value))
    (h : ∀ k, getVal i1 k = getVal i2 k) :
    ∀ ps : Registry, collectP rm i1 ps = collectP rm i2 ps := by
  intro ps
  induction ps with
  | nil => rfl
  | cons p rest ih =>
    unfold collectP
    rw [h p.1, ih]

/-- C9: at the `validate` interface an input that maps a defined name
explicitly to null behaves exactly like the same input with that key
removed (the key is defined, so it never counts as unexpected either
way); and a null per-parameter value yields the missing-parameter error
for a required definition and the untouched default for an optional
one. -/
theorem explicit_null_equals_missing (rm : String → String → Bool) (ps : Registry)
    (input : List (String × Value)) (n : String)
    (hdef : (ps.map Prod.fst).contains n = true) :
    validate rm ps (setK input n .vNull) = validate rm ps (eraseK input n)
    ∧ ∀ d : ParameterDefinition,
        validateParameter rm n .vNull d
          = (if d.required then .error (.validationError (missingMsg n d)) else .ok d.default) := by
  constructor
  · have hget : ∀ k, getVal (setK input n .vNull) k = getVal (eraseK input n) k := by
      intro k
      by_cases hk : k = n
      · rw [hk, getVal_setK_self, getVal_eraseK_self]
      · rw [getVal_setK_ne input n _ k hk, getVal_eraseK_ne input n k hk]
    have hcoll := collectP_congr rm _ _ hget ps
    have hun := unexpectedKeys_null_eq ps input n hdef
    unfold validate
    rw [hcoll, hun]
  · intro d
    cases hreq : d.required with
    | true => unfold validateParameter; rw [hreq]; rfl
    | false => unfold validateParameter; rw [hreq]; rfl

/-- C9 witness: mapping `language_origin` of `regGood` to null validates
exactly like omitting it, and the null value turns into the stored
default. -/
theorem explicit_null_equals_missing_witness :
    validate rmLen2 regGood (setK [("type", Value.vStr "symptom")] "language_origin" .vNull)
      = validate rmLen2 regGood (eraseK [("type", Value.vStr "symptom")] "language_origin")
    ∧ validateParameter rmLen2 "language_origin" .vNull dLangF
        = (if dLangF.required then .error (.validationError (missingMsg "language_origin" dLangF))
           else .ok dLangF.default) := by
  have h := explicit_null_equals_missing rmLen2 regGood [("type", Value.vStr "symptom")]
    "language_origin" (by decide)
  exact ⟨h.1, h.2 dLangF⟩

/-- C10: registering a definition under an already-registered name does
not fail — it replaces the earlier definition in place, keeping the
original position of the name, so registering `d1` and then `d2` with
the same name leaves exactly the registry that registering `d2` alone
would, and every later `validate` call and documentation rendering sees
only the newest definition. -/
theorem addParameter_replaces_in_place (ps : Registry) (d1 d2 : ParameterDefinition)
    (h : d1.name = d2.name) :
    addParameter (addParameter ps d1) d2 = addParameter ps d2
    ∧ (∀ (rm : String → String → Bool) (input : List (String × Value)),
        validate rm (addParameter (addParameter ps d1) d2) input
          = validate rm (addParameter ps d2) input)
    ∧ generateDocumentation (addParameter (addParameter ps d1) d2)
        = generateDocumentation (addParameter ps d2) := by
  have hmain : addParameter (addParameter ps d1) d2 = addParameter ps d2 := by
    cases hc : (ps.map Prod.fst).contains d1.name with
    | true =>
      have hc2 : (ps.map Prod.fst).contains d2.name = true := by rw [← h]; exact hc
      have e1 : addParameter ps d1
          = ps.map (fun p => if p.1 == d1.name then (p.1, d1) else p) := by
        unfold addParameter
        rw [hc]
        rfl
      have hkeys : (addParameter ps d1).map Prod.fst = ps.map Prod.fst := by
        rw [e1, List.map_map]
        exact congrFun (congrArg List.map (funext fun p => by
          show (if (p.1 == d1.name) = true then (p.1, d1) else p).1 = p.1
          split <;> rfl)) ps
      have e2 : addParameter (addParameter ps d1) d2
          = (addParameter ps d1).map (fun p => if p.1 == d2.name then (p.1, d2) else p) := by
        conv_lhs => rw [addParameter]
        rw [hkeys, hc2]
        rfl
      have e3 : addParameter ps d2
          = ps.map (fun p => if p.1 == d2.name then (p.1, d2) else p) := by
        unfold addParameter
        rw [hc2]
        rfl
      rw [e2, e1, e3, List.map_map]
      refine congrFun (congrArg List.map (funext fun p => ?_)) ps
      by_cases hq : p.1 = d1.name
      · have hb1 : (p.1 == d1.name) = true := beq_iff_eq.mpr hq
        have hb2 : (p.1 == d2.name) = true := beq_iff_eq.mpr (h ▸ hq)
        show (fun p => if p.1 == d2.name then (p.1, d2) else p)
          (if (p.1 == d1.name) = true then (p.1, d1) else p) = _
        simp [hb1, hb2]
      · have hb1 : (p.1 == d1.name) = false := beq_eq_false_iff_ne.mpr hq
        show (fun p => if p.1 == d2.name then (p.1, d2) else p)
          (if (p.1 == d1.name) = true then (p.1, d1) else p) = _
        simp [hb1]
    | false =>
      have hc2 : (ps.map Prod.fst).contains d2.name = false := by rw [← h]; exact hc
      have e1 : addParameter ps d1 = ps ++ [(d1.name, d1)] := by
        unfold addParameter
        rw [hc]
        rfl
      have hc3 : ((ps ++ [(d1.name, d1)]).map Prod.fst).contains d2.name = true := by
        have hmem : d2.name ∈ (ps ++ [(d1.name, d1)]).map Prod.fst := by
          rw [List.map_append]
          exact List.mem_append_right _ (by rw [← h]; exact List.mem_singleton.mpr rfl)
        exact List.elem_iff.mpr hmem
      have e2 : addParameter (ps ++ [(d1.name, d1)]) d2
          = (ps ++ [(d1.name, d1)]).map (fun p => if p.1 == d2.name then (p.1, d2) else p) := by
        unfold addParameter
        rw [hc3]
        rfl
      have e3 : addParameter ps d2 = ps ++ [(d2.name, d2)] := by
        unfold addParameter
        rw [hc2]
        rfl
      have hmap : (ps ++ [(d1.name, d1)]).map (fun p => if p.1 == d2.name then (p.1, d2) else p)
          = ps ++ [(d2.name, d2)] := by
        rw [List.map_append]
        have hps : ps.map (fun p => if p.1 == d2.name then (p.1, d2) else p) = ps := by
          have hpt : ∀ p ∈ ps, (if (p.1 == d2.name) = true then (p.1, d2) else p) = p := by
            intro p hp
            have hne : (p.1 == d2.name) = false := by
              apply beq_eq_false_iff_ne.mpr
              intro hcontra
              have hmem2 : d2.name ∈ ps.map Prod.fst := hcontra ▸ List.mem_map_of_mem Prod.fst hp
              have hc2t : (ps.map Prod.fst).contains d2.name = true := List.elem_iff.mpr hmem2
              exact Bool.noConfusion (hc2t.symm.trans hc2)
            rw [hne]
            rfl
          calc ps.map (fun p => if p.1 == d2.name then (p.1, d2) else p)
              = ps.map id := List.map_congr_left hpt
            _ = ps := List.map_id ps
        rw [hps]
        have hsingle : [(d1.name, d1)].map (fun p => if p.1 == d2.name then (p.1, d2) else p)
            = [(d2.name, d2)] := by
          have hb : (d1.name == d2.name) = true := beq_iff_eq.mpr h
          simp [hb, h]
        rw [hsingle]
      rw [e1, e2, hmap, e3]
  exact ⟨hmain, fun rm input => by rw [hmain], by rw [hmain]⟩

/-- C10 witness: registering `dDupA` then `dDupB` (both named `p`) over
a one-entry registry equals registering `dDupB` alone, and validation
and documentation agree. -/
theorem addParameter_replaces_in_place_witness :
    addParameter (addParameter [("q", dTextF)] dDupA) dDupB = addParameter [("q", dTextF)] dDupB
    ∧ validate rmTrue (addParameter (addParameter [("q", dTextF)] dDupA) dDupB)
        [("p", Value.vInt 3), ("q", Value.vStr "hi")]
        = validate rmTrue (addParameter [("q", dTextF)] dDupB)
            [("p", Value.vInt 3), ("q", Value.vStr "hi")]
    ∧ generateDocumentation (addParameter (addParameter [("q", dTextF)] dDupA) dDupB)
        = generateDocumentation (addParameter [("q", dTextF)] dDupB) := by
  have hthm := addParameter_replaces_in_place [("q", dTextF)] dDupA dDupB rfl
  exact ⟨hthm.1, hthm.2.1 rmTrue [("p", Value.vInt 3), ("q", Value.vStr "hi")], hthm.2.2⟩
